import Mathlib

/-!
Verification of the authentication / session subsystem of the
`knowledge_vault` backend (files `app/core/security.py`,
`app/core/rate_limiting.py`, `app/core/client_ip.py`,
`app/api/dependencies.py`) against its natural-language specification.

The Python code is shallowly embedded: pure functions become Lean
functions, the database session becomes an explicit `AuthDB` value that
each operation threads through, `datetime` values become integer
timestamps (seconds), `time.time()` floats become integer timestamps, raised
exceptions become `Except`, and `None`-able values become `Option`.
Python truthiness of optional strings (`None` and `""` are falsy) is
made explicit via `pyTruthy`.
-/

namespace KnowledgeVault

/-! ## Python-level helpers -/

/-- Truthiness of an optional Python string: `None` and `""` are falsy. -/
def pyTruthy : Option String → Bool
  | none => false
  | some s => !(s == "")

/-- Model of `str.lower()` (the strings this code lowers are ASCII). -/
def pyLower (s : String) : String :=
  String.mk (s.data.map Char.toLower)

/-- Model of `str.startswith(pre)`. -/
def pyStartsWith (s pre : String) : Bool :=
  pre.data.isPrefixOf s.data

/-- Splitting a character list at every occurrence of a separator
(semantics of Python `str.split(sep)` for a one-character separator:
the empty string yields `[""]`, separators at the ends yield empty
pieces). -/
def splitOnChar (sep : Char) : List Char → List (List Char)
  | [] => [[]]
  | c :: rest =>
    match splitOnChar sep rest with
    | [] => [[c]]
    | g :: gs => if c == sep then [] :: g :: gs else (c :: g) :: gs

/-- Model of `str.split(sep)` for a one-character separator. -/
def pySplit (s : String) (sep : Char) : List String :=
  (splitOnChar sep s.data).map String.mk

/-- Model of `str.strip()` (default whitespace stripping; the inputs
this code strips are ASCII). -/
def pyStrip (s : String) : String :=
  String.mk
    (List.reverse (List.dropWhile Char.isWhitespace
      (List.reverse (List.dropWhile Char.isWhitespace s.data))))

/-- The natural number denoted by a nonempty all-digit character list. -/
def digitsToNat? (cs : List Char) : Option Nat :=
  if cs ≠ [] ∧ cs.all Char.isDigit then
    some (cs.foldl (fun n c => 10 * n + (c.toNat - '0'.toNat)) 0)
  else none

/-- Model of Python `int(s)` as used on rate-limit counts: an optional
sign followed by digits (Python additionally tolerates surrounding
whitespace and underscores, which no configured rate string uses). -/
def pyToInt? (s : String) : Option Int :=
  match s.data with
  | '-' :: rest => (digitsToNat? rest).map (fun n => -(n : Int))
  | '+' :: rest => (digitsToNat? rest).map (fun n => (n : Int))
  | cs => (digitsToNat? cs).map (fun n => (n : Int))

/-! ## Password hasher (`security.py`: `pwd_context`, `verify_password`, `get_password_hash`)

The code delegates to `passlib.context.CryptContext(schemes=["bcrypt"])`.
The library is modelled from its documented contract:
`CryptContext.hash` produces a modular-crypt-format bcrypt string
`$2b$<2-digit cost>$<22-char salt><checksum>`; `CryptContext.verify`
raises `UnknownHashError` (a `ValueError`) when the hash string matches
no configured scheme, raises a `ValueError` for a malformed bcrypt
string, and otherwise recomputes the checksum and compares.  The
Eks-Blowfish key-derivation output is abstracted as an injective
function of the password (`bcryptChecksum`); the development relies
only on its determinism and injectivity, never on its length or value. -/

inductive PasslibError where
  /-- The hash string could not be matched to any configured scheme
  (passlib `UnknownHashError`, a subclass of `ValueError`). -/
  | unknownHash
  /-- The hash string was identified as bcrypt but is structurally
  malformed (passlib raises `ValueError`). -/
  | malformedHash
  deriving DecidableEq

/-- Abstraction of the bcrypt key-derivation output for a password
(the salt-dependence of the real checksum is abstracted away; only
determinism and injectivity in the password are used). -/
def bcryptChecksum (p : String) : String := p

/-- Model of `get_password_hash` (`security.py` line 78): delegates to
`pwd_context.hash`, which draws a fresh 22-character salt.  The salt is
made an explicit parameter to resolve the randomness. -/
def get_password_hash (salt : String) (password : String) : String :=
  "$2b$" ++ "12$" ++ salt ++ bcryptChecksum password

/-- Model of `CryptContext.verify` for the bcrypt scheme: identify the
scheme by its `$2b$` tag, parse the two-digit cost, the 22-character
salt and the checksum, and compare checksums.  Unidentifiable and
malformed inputs raise (modelled as `Except.error`). -/
def bcryptVerify (password : String) (hash : String) : Except PasslibError Bool :=
  if ("$2b$".data).isPrefixOf hash.data then
    match hash.data.drop 4 with
    | c1 :: c2 :: c3 :: rest =>
      if c1.isDigit ∧ c2.isDigit ∧ c3 = '$' ∧ 22 ≤ rest.length then
        Except.ok (rest.drop 22 == (bcryptChecksum password).data)
      else Except.error PasslibError.malformedHash
    | _ => Except.error PasslibError.malformedHash
  else Except.error PasslibError.unknownHash

/-- Embedding of `verify_password` (`security.py` lines 73-75): a bare
delegation `return pwd_context.verify(plain_password, hashed_password)`
with no exception handling, so a library error propagates to the
caller. -/
def verify_password (plain_password : String) (hashed_password : String) :
    Except PasslibError Bool :=
  bcryptVerify plain_password hashed_password

/-! ## Refresh-token store (`security.py` lines 83-327, `db/models.py`)

Rows of the `refresh_tokens` table and the columns of `users` that the
token operations read.  `datetime` columns are embedded as integer
timestamps (seconds); `db.commit()` is the point where the pending
attribute mutations and inserts of the Python session become visible,
so each operation returns the state it committed (failure paths return
the state unchanged — they commit nothing). -/

/-- Columns of `users` read by the token subsystem (`db/models.py`). -/
structure UserRow where
  id : String
  is_active : Bool
  deriving DecidableEq

/-- A row of `refresh_tokens` (`db/models.py` lines 167-183).
`meta_data` is the JSON dict column, embedded as an association list. -/
structure RefreshTokenRow where
  id : Nat
  user_id : String
  token_hash : String
  expires_at : Int
  is_revoked : Bool
  meta_data : List (String × String)
  deriving DecidableEq

/-- The database state the auth subsystem touches.  `next_id` stands for
the primary-key generator of the `refresh_tokens` table. -/
structure AuthDB where
  users : List UserRow
  refresh_tokens : List RefreshTokenRow
  next_id : Nat
  deriving DecidableEq

/-- Embedding of `hash_refresh_token` (`security.py` line 83): the
SHA-256 hex digest is abstracted as an injective tagging of the token;
the development relies only on its determinism and collision-freeness. -/
def hash_refresh_token (token : String) : String :=
  "sha256:" ++ token

/-- Value of `settings.REFRESH_TOKEN_EXPIRE_DAYS` (`config.py` line 31). -/
def REFRESH_TOKEN_EXPIRE_DAYS : Int := 30

/-- Embedding of `verify_refresh_token` (`security.py` lines 204-227):
`SELECT` the first row whose digest matches and which is unexpired
(`expires_at > now`) and unrevoked. -/
def verify_refresh_token (db : AuthDB) (now : Int) (token : String) :
    Option RefreshTokenRow :=
  let token_hash := hash_refresh_token token
  db.refresh_tokens.find? fun r =>
    r.token_hash == token_hash && now < r.expires_at && !r.is_revoked

/-- The in-place mutation `row.is_revoked = True` applied to the first
row matching a digest, as committed by the session. -/
def revokeFirstByHash : List RefreshTokenRow → String → List RefreshTokenRow
  | [], _ => []
  | r :: rs, h =>
    if r.token_hash == h then { r with is_revoked := true } :: rs
    else r :: revokeFirstByHash rs h

/-- Embedding of `rotate_refresh_token` (`security.py` lines 230-267).
`SELECT ... FOR UPDATE` the first row matching the digest; fail (and
change nothing) if it is missing, expired, revoked, or its owner is
missing or inactive; otherwise mark it revoked, insert the successor
row, and commit both in the same transaction.  The fresh plaintext
drawn by `generate_refresh_token` is an explicit parameter `newPlain`. -/
def rotate_refresh_token (db : AuthDB) (now : Int) (newPlain : String)
    (token : String) :
    (Option String × Option RefreshTokenRow × Option UserRow) × AuthDB :=
  let token_hash := hash_refresh_token token
  match db.refresh_tokens.find? (fun r => r.token_hash == token_hash) with
  | none => ((none, none, none), db)
  | some row =>
    if row.expires_at ≤ now || row.is_revoked then ((none, none, none), db)
    else
      match db.users.find? (fun u => u.id == row.user_id) with
      | none => ((none, none, none), db)
      | some user =>
        if !user.is_active then ((none, none, none), db)
        else
          let new_hash := hash_refresh_token newPlain
          let new_rt : RefreshTokenRow :=
            { id := db.next_id
              user_id := user.id
              token_hash := new_hash
              expires_at := now + 86400 * REFRESH_TOKEN_EXPIRE_DAYS
              is_revoked := false
              meta_data := [] }
          ((some newPlain, some new_rt, some user),
            { db with
                refresh_tokens :=
                  revokeFirstByHash db.refresh_tokens token_hash ++ [new_rt]
                next_id := db.next_id + 1 })

/-- Embedding of `revoke_refresh_token` (`security.py` lines 270-295):
`SELECT` the first row matching the digest with no filter on
`is_revoked`; if found, mark it revoked, commit, and return `true`,
otherwise return `false` with the state unchanged. -/
def revoke_refresh_token (db : AuthDB) (token : String) : Bool × AuthDB :=
  let token_hash := hash_refresh_token token
  match db.refresh_tokens.find? (fun r => r.token_hash == token_hash) with
  | some _ =>
    (true, { db with refresh_tokens := revokeFirstByHash db.refresh_tokens token_hash })
  | none => (false, db)

/-- Embedding of `revoke_all_user_refresh_tokens` (`security.py` lines
298-327): `SELECT` every unrevoked row of the user, mark each revoked,
commit when at least one was touched, and return the count.  (When the
count is zero no commit happens; the map below is then the identity, so
the returned state is unchanged either way.) -/
def revoke_all_user_refresh_tokens (db : AuthDB) (user_id : String) :
    Nat × AuthDB :=
  let revoked_count :=
    (db.refresh_tokens.filter fun r => r.user_id == user_id && !r.is_revoked).length
  (revoked_count,
    { db with
        refresh_tokens := db.refresh_tokens.map fun r =>
          if r.user_id == user_id && !r.is_revoked then { r with is_revoked := true }
          else r })

/-! ## CSRF / origin guard (`security.py` lines 18-63)

The request object is embedded with the method and the three headers
the guard reads (`Starlette` header lookup returns the value or `None`;
an explicitly present empty header yields `""`). -/

/-- The parts of a FastAPI `Request` read by
`validate_origin_for_cookie_auth`. -/
structure HttpRequest where
  method : String
  authorization : Option String
  origin : Option String
  referer : Option String
  deriving DecidableEq

/-- Characters allowed in a URL scheme after the leading letter
(CPython `urllib.parse.scheme_chars`). -/
def isSchemeChar (c : Char) : Bool :=
  c.isAlphanum || c == '+' || c == '-' || c == '.'

/-- Model of the scheme-splitting step of CPython `urlsplit`: if the
text before the first `:` is a nonempty run of scheme characters
starting with an ASCII letter, it is the scheme (lower-cased) and the
remainder follows the `:`; otherwise the scheme is empty. -/
def splitScheme (cs : List Char) : List Char × List Char :=
  match cs.dropWhile (· ≠ ':') with
  | ':' :: rest =>
    let s := cs.takeWhile (· ≠ ':')
    if s ≠ [] ∧ (s.headD 'a').isAlpha ∧ s.all isSchemeChar then
      (s.map Char.toLower, rest)
    else ([], cs)
  | _ => ([], cs)

/-- Model of the netloc step of CPython `urlsplit`: after the scheme,
a `//` introduces the netloc, which extends to the next `/`, `?` or
`#`; without `//` the netloc is empty. -/
def netlocOf (cs : List Char) : List Char :=
  match cs with
  | '/' :: '/' :: rest => rest.takeWhile fun c => c ≠ '/' && c ≠ '?' && c ≠ '#'
  | _ => []

/-- The origin string `f"{parsed.scheme}://{parsed.netloc}"` derived
from a `Referer` value via `urlparse` (`security.py` lines 53-54). -/
def urlparseOrigin (referer : String) : String :=
  let p := splitScheme referer.data
  String.mk p.1 ++ "://" ++ String.mk (netlocOf p.2)

/-- Embedding of `validate_origin_for_cookie_auth` (`security.py` lines
18-63).  `urlparse` never raises on a string input, so the
`try/except` around it is dead and the model has no error path. -/
def validate_origin_for_cookie_auth (request : HttpRequest)
    (allowed_origins : List String) : Bool :=
  if request.method == "GET" || request.method == "HEAD" || request.method == "OPTIONS" then
    true
  else if pyStartsWith (pyLower (request.authorization.getD "")) "bearer " then
    true
  else
    let origin := request.origin
    let referer := request.referer
    let check_origin : Option String :=
      if !pyTruthy origin then
        match referer with
        | some r => if r == "" then origin else some (urlparseOrigin r)
        | none => origin
      else origin
    if !pyTruthy check_origin then false
    else allowed_origins.contains (check_origin.getD "")

/-! ## Rate limiter (`rate_limiting.py`) -/

/-- State of `SlidingWindowRateLimiter`: the per-key deques of request
timestamps (`time.time()` floats, embedded as integer timestamps) in
dict insertion order, and the time of the last periodic cleanup. -/
structure RateLimiterState where
  windows : List (String × List ℤ)
  last_cleanup : ℤ
  deriving DecidableEq

/-- The `rate_limit_info` dict returned by `is_allowed`
(`rate_limiting.py` lines 92-97). -/
structure RateLimitInfo where
  limit : Int
  remaining : Int
  reset : Int
  retry_after : Int
  deriving DecidableEq

/-- Embedding of `SlidingWindowRateLimiter._cleanup_old_entries`
(`rate_limiting.py` lines 32-56): at most every 300 seconds, drop the
leading timestamps older than one hour from every window and delete the
windows that become empty. -/
def cleanupOldEntries (st : RateLimiterState) (now : ℤ) : RateLimiterState :=
  if now - st.last_cleanup < 300 then st
  else
    let cutoff := now - 3600
    { windows :=
        (st.windows.map fun kw => (kw.1, kw.2.dropWhile fun t => t < cutoff)).filter
          fun kw => !kw.2.isEmpty
      last_cleanup := now }

/-- The deque stored for a key (`self._windows[key]` read side;
a missing key reads as the fresh empty deque of the `defaultdict`). -/
def lookupWindow (ws : List (String × List ℤ)) (key : String) : List ℤ :=
  match ws.find? (fun kw => kw.1 == key) with
  | some kw => kw.2
  | none => []

/-- Writing back a key's deque: the `defaultdict` access inserts the
key at the end of the dict order when absent, and the deque is then
mutated in place. -/
def setWindow (ws : List (String × List ℤ)) (key : String) (w : List ℤ) :
    List (String × List ℤ) :=
  if ws.any (fun kw => kw.1 == key) then
    ws.map fun kw => if kw.1 == key then (kw.1, w) else kw
  else ws ++ [(key, w)]

/-- Embedding of `SlidingWindowRateLimiter.is_allowed`
(`rate_limiting.py` lines 58-99).  `now` is the `time.time()` value
(integer model); the `int()` truncations in `rate_limit_info` are then
the identity. -/
def is_allowed (st : RateLimiterState) (now : ℤ) (key : String)
    (limit : Int) (window_seconds : Int) : (Bool × RateLimitInfo) × RateLimiterState :=
  let window_start : ℤ := now - window_seconds
  let st1 := cleanupOldEntries st now
  let window := lookupWindow st1.windows key
  let w1 := window.dropWhile fun t => t < window_start
  let current_count : Int := w1.length
  let allowed := current_count < limit
  let w2 := if allowed then w1 ++ [now] else w1
  let info : RateLimitInfo :=
    { limit := limit
      remaining := max 0 (limit - current_count - (if allowed then 1 else 0))
      reset := if w2.isEmpty then now + window_seconds
               else window_start + window_seconds
      retry_after := if allowed then 0 else window_seconds }
  ((decide allowed, info), { st1 with windows := setWindow st1.windows key w2 })

/-- Embedding of `parse_rate_limit` (`rate_limiting.py` lines 106-131):
split on `/`; anything that does not unpack into an integral count and
a period keyword falls back to `5/minute` (unknown periods default to a
minute). -/
def parse_rate_limit (rate_string : String) : Int × Int :=
  match pySplit rate_string '/' with
  | [count_str, period] =>
    match pyToInt? count_str with
    | some count =>
      let p := pyLower period
      let seconds : Int :=
        if p == "second" then 1
        else if p == "minute" then 60
        else if p == "hour" then 3600
        else if p == "day" then 86400
        else 60
      (count, seconds)
    | none => (5, 60)
  | _ => (5, 60)

/-- The parts of a request read by the two client-IP extractors:
the forwarding headers and the socket peer (`request.client.host`,
absent when there is no transport). -/
structure NetRequest where
  x_forwarded_for : Option String
  x_real_ip : Option String
  client : Option String
  deriving DecidableEq

/-- Embedding of `rate_limiting.get_client_ip` (`rate_limiting.py`
lines 134-152): trust `X-Forwarded-For` (first comma-separated entry)
unconditionally, then `X-Real-IP`, then the socket peer. -/
def rl_get_client_ip (req : NetRequest) : String :=
  if pyTruthy req.x_forwarded_for then
    pyStrip ((pySplit (req.x_forwarded_for.getD "") ',').headD "")
  else if pyTruthy req.x_real_ip then
    pyStrip (req.x_real_ip.getD "")
  else
    match req.client with
    | some host => host
    | none => "unknown"

/-- Embedding of `client_ip.get_client_ip` (`client_ip.py` lines
15-40): honour the forwarding headers only when the socket peer is in
the configured `TRUSTED_PROXY_IPS` list. -/
def trusted_get_client_ip (trusted_proxy_ips : String) (req : NetRequest) : String :=
  match req.client with
  | none => "unknown"
  | some direct_client =>
    if direct_client == "" then "unknown"
    else
      let trusted :=
        ((pySplit trusted_proxy_ips ',').map pyStrip).filter fun s => !(s == "")
      if !(trusted.contains direct_client) then direct_client
      else if pyTruthy req.x_forwarded_for then
        pyStrip ((pySplit (req.x_forwarded_for.getD "") ',').headD "")
      else if pyTruthy req.x_real_ip then
        pyStrip (req.x_real_ip.getD "")
      else direct_client

/-- Embedding of `get_rate_limit_key` (`rate_limiting.py` lines
155-177): builds the bucket key from `rate_limiting.get_client_ip`
(never from the trusted-proxy-aware extractor). -/
def get_rate_limit_key (req : NetRequest) (identifier_type : String)
    (user_id : Option String) : String :=
  let client_ip := rl_get_client_ip req
  if identifier_type == "ip" then "ip:" ++ client_ip
  else if identifier_type == "user" && pyTruthy user_id then
    "user:" ++ user_id.getD ""
  else if identifier_type == "ip_user" && pyTruthy user_id then
    "ip_user:" ++ client_ip ++ ":" ++ user_id.getD ""
  else "ip:" ++ client_ip

/-- Embedding of `check_rate_limit` (`rate_limiting.py` lines 180-225):
parse the limit string, build the key, and consult the global limiter
(logging has no effect on the result or the state). -/
def check_rate_limit (st : RateLimiterState) (now : ℤ) (req : NetRequest)
    (rate_limit_string : String) (identifier_type : String)
    (user_id : Option String) : (Bool × RateLimitInfo) × RateLimiterState :=
  let parsed := parse_rate_limit rate_limit_string
  let key := get_rate_limit_key req identifier_type user_id
  is_allowed st now key parsed.1 parsed.2

/-! ## Authenticated-user dependency (`api/dependencies.py`) -/

/-- A raised `fastapi.HTTPException`, as observed by the framework. -/
structure HTTPExceptionModel where
  status_code : Int
  detail : String
  deriving DecidableEq

/-- Embedding of `get_current_active_user` (`dependencies.py` lines
120-128): the dependency receives the already-authenticated user and
raises `HTTPException(status.HTTP_400_BAD_REQUEST, "Inactive user")`
when the user is inactive. -/
def get_current_active_user (current_user : UserRow) :
    Except HTTPExceptionModel UserRow :=
  if !current_user.is_active then
    Except.error { status_code := 400, detail := "Inactive user" }
  else Except.ok current_user

/-! ## Specification-side definitions

The following definitions transcribe sentences of the specification (not
the source); they exist only to be compared against the embedded code. -/

/-- The failure condition the specification enumerates for rotation:
the digest matches no row, or the matched row is expired or already
revoked, or the owning user is missing or inactive. -/
def rotateFailureSpec (db : AuthDB) (now : Int) (token : String) : Prop :=
  match db.refresh_tokens.find? (fun r => r.token_hash == hash_refresh_token token) with
  | none => True
  | some row =>
    row.expires_at ≤ now ∨ row.is_revoked = true ∨
      match db.users.find? (fun u => u.id == row.user_id) with
      | none => True
      | some user => user.is_active = false

/-- The origin-guard decision exactly as the specification words it:
safe methods pass, bearer requests pass, otherwise the `Origin` header
is compared against the allow-list, with `Referer` consulted only when
`Origin` is absent. -/
def originGuardClaim (request : HttpRequest) (allowed_origins : List String) : Bool :=
  if request.method == "GET" || request.method == "HEAD" || request.method == "OPTIONS" then
    true
  else if pyStartsWith (pyLower (request.authorization.getD "")) "bearer " then
    true
  else
    match request.origin with
    | some o => allowed_origins.contains o
    | none =>
      match request.referer with
      | some r => allowed_origins.contains (urlparseOrigin r)
      | none => false

/-- The origin-guard decision amended to match the code: an `Origin`
header that is absent *or empty* defers to `Referer`, and an empty
`Referer` counts as absent. -/
def originGuardAmended (request : HttpRequest) (allowed_origins : List String) : Bool :=
  if request.method == "GET" || request.method == "HEAD" || request.method == "OPTIONS" then
    true
  else if pyStartsWith (pyLower (request.authorization.getD "")) "bearer " then
    true
  else
    match request.origin with
    | some o =>
      if o == "" then
        match request.referer with
        | some r => if r == "" then false else allowed_origins.contains (urlparseOrigin r)
        | none => false
      else allowed_origins.contains o
    | none =>
      match request.referer with
      | some r => if r == "" then false else allowed_origins.contains (urlparseOrigin r)
      | none => false

/-- The timestamps of a key that survive the eviction the specification
describes: everything not older than `now - window_seconds`. -/
def keptWindow (st : RateLimiterState) (now : ℤ) (key : String)
    (window_seconds : Int) : List ℤ :=
  (lookupWindow st.windows key).filter fun t => now - window_seconds ≤ t

/-- The admission rule as the specification words it: a request is
allowed iff fewer than `limit` timestamps of the key's stored window
lie within the trailing `window_seconds`. -/
def slidingWindowClaimAllowed (st : RateLimiterState) (now : ℤ) (key : String)
    (limit : Int) (window_seconds : Int) : Bool :=
  decide (((keptWindow st now key window_seconds).length : Int) < limit)

/-- Per-row frame condition: every column except `is_revoked` is
unchanged, and `is_revoked` is only ever set (never cleared). -/
def rowFramePreserved (o n : RefreshTokenRow) : Prop :=
  n.id = o.id ∧ n.user_id = o.user_id ∧ n.token_hash = o.token_hash ∧
    n.expires_at = o.expires_at ∧ n.meta_data = o.meta_data ∧
    (o.is_revoked = true → n.is_revoked = true)

/-- Evolution of the `refresh_tokens` table an operation is allowed:
the existing rows survive in place (possibly with `is_revoked` newly
set) and any remaining rows are fresh inserts appended after them. -/
def tokensFrameEvolution (old new : List RefreshTokenRow) : Prop :=
  ∃ updated added, new = updated ++ added ∧ List.Forall₂ rowFramePreserved old updated

/-! ## Concrete fixtures for witnesses and counterexamples -/

/-- An active user. -/
def userActive : UserRow := { id := "u1", is_active := true }

/-- An inactive user. -/
def userInactive : UserRow := { id := "u9", is_active := false }

/-- A live refresh-token row for `userActive` storing the digest of
plaintext `tokA`. -/
def rowA : RefreshTokenRow :=
  { id := 1, user_id := "u1", token_hash := hash_refresh_token "tokA"
    expires_at := 1000, is_revoked := false, meta_data := [] }

/-- A second live refresh-token row for `userActive` (plaintext `tokB`). -/
def rowB : RefreshTokenRow :=
  { id := 2, user_id := "u1", token_hash := hash_refresh_token "tokB"
    expires_at := 1000, is_revoked := false, meta_data := [] }

/-- A database with one active user owning two live tokens. -/
def dbEx : AuthDB := { users := [userActive], refresh_tokens := [rowA, rowB], next_id := 3 }

/-- A 22-character salt, as drawn by the bcrypt backend. -/
def saltEx : String := "abcdefghijklmnopqrstuv"

/-- A state-changing cookie request carrying an empty `Origin` header
together with an allow-listed `Referer`. -/
def reqEmptyOrigin : HttpRequest :=
  { method := "POST", authorization := none
    origin := some "", referer := some "http://localhost:3000" }

/-- The allow-list for the origin-guard examples. -/
def allowedEx : List String := ["http://localhost:3000"]

/-- Limiter state holding one key whose single timestamp is 7200
seconds old at observation time 10000, with the periodic cleanup due. -/
def stStale : RateLimiterState := { windows := [("k", [2800])], last_cleanup := 0 }

/-- Limiter state after five requests for one IP bucket at times
0,…,4 (cleanup not yet due). -/
def stFive : RateLimiterState :=
  { windows := [("ip:1.2.3.4", [0, 1, 2, 3, 4])], last_cleanup := 0 }

/-- A request whose `X-Forwarded-For` was chosen by the client while
the socket peer is `203.0.113.7`. -/
def reqSpoof : NetRequest :=
  { x_forwarded_for := some "9.9.9.9, 10.0.0.1", x_real_ip := none
    client := some "203.0.113.7" }

/-- Driver replaying a sequence of request times through the limiter
for one key, collecting each admission decision. -/
def rateChain (st : RateLimiterState) (times : List ℤ) (key : String)
    (limit : Int) (window_seconds : Int) : List Bool :=
  match times with
  | [] => []
  | t :: ts =>
    let r := is_allowed st t key limit window_seconds
    r.1.1 :: rateChain r.2 ts key limit window_seconds

/-! ## Theorems -/

/-- Evaluation of the modelled verifier on a well-formed bcrypt string:
the scheme tag is identified, the cost and 22-character salt parse, and
the stored checksum is compared with the recomputed one. -/
theorem bcryptVerify_wellformed (p salt c : String) (hsalt : salt.data.length = 22) :
    bcryptVerify p ("$2b$" ++ "12$" ++ salt ++ c) = Except.ok (c.data == (bcryptChecksum p).data) := by
  have hdata : ("$2b$" ++ "12$" ++ salt ++ c).data
      = '$' :: '2' :: 'b' :: '$' :: '1' :: '2' :: '$' :: (salt.data ++ c.data) := by
    simp [String.data_append]
  unfold bcryptVerify
  rw [hdata]
  have hpre : (("$2b$".data).isPrefixOf
      ('$' :: '2' :: 'b' :: '$' :: '1' :: '2' :: '$' :: (salt.data ++ c.data))) = true := by
    simp [List.isPrefixOf]
  rw [if_pos hpre]
  have hdrop : List.drop 4 ('$' :: '2' :: 'b' :: '$' :: '1' :: '2' :: '$' :: (salt.data ++ c.data))
      = '1' :: '2' :: '$' :: (salt.data ++ c.data) := rfl
  rw [hdrop]
  have hlen : 22 ≤ (salt.data ++ c.data).length := by
    rw [List.length_append, hsalt]; omega
  show (if '1'.isDigit = true ∧ '2'.isDigit = true ∧ '$' = '$' ∧ 22 ≤ (salt.data ++ c.data).length then
      Except.ok (List.drop 22 (salt.data ++ c.data) == (bcryptChecksum p).data)
    else Except.error PasslibError.malformedHash) = Except.ok (c.data == (bcryptChecksum p).data)
  rw [if_pos ⟨by decide, by decide, rfl, hlen⟩]
  rw [List.drop_left' hsalt]

/-- C3 counterexample. The claim asserts that `verify_password` never
throws on a corrupt digest; on a digest passlib cannot identify as any
configured scheme, the library raises `UnknownHashError`, which the
bare delegation in `verify_password` propagates instead of returning
`false`. -/
theorem verify_password_unidentifiable_digest_raises :
    verify_password "secret" "not-a-bcrypt-hash" = Except.error PasslibError.unknownHash := by
  rfl

/-- C3 (amended). Round-trip verification succeeds; a wrong password
fails; a corrupt digest that is still a well-formed bcrypt string fails
without raising; and a digest the library cannot identify raises an
error that `verify_password` propagates. -/
theorem verify_password_contract (salt p q c h : String)
    (hsalt : salt.data.length = 22) :
    verify_password p (get_password_hash salt p) = Except.ok true ∧
    (p ≠ q → verify_password q (get_password_hash salt p) = Except.ok false) ∧
    (c.data ≠ (bcryptChecksum p).data →
      verify_password p ("$2b$" ++ "12$" ++ salt ++ c) = Except.ok false) ∧
    (("$2b$".data).isPrefixOf h.data = false →
      verify_password p h = Except.error PasslibError.unknownHash) := by
  refine ⟨?_, ?_, ?_, ?_⟩
  · show bcryptVerify p ("$2b$" ++ "12$" ++ salt ++ bcryptChecksum p) = Except.ok true
    rw [bcryptVerify_wellformed p salt _ hsalt]
    simp
  · intro hpq
    show bcryptVerify q ("$2b$" ++ "12$" ++ salt ++ bcryptChecksum p) = Except.ok false
    rw [bcryptVerify_wellformed q salt _ hsalt]
    have : (bcryptChecksum p).data ≠ (bcryptChecksum q).data := by
      intro hc
      exact hpq (String.ext hc)
    simp [this]
  · intro hc
    show bcryptVerify p ("$2b$" ++ "12$" ++ salt ++ c) = Except.ok false
    rw [bcryptVerify_wellformed p salt _ hsalt]
    simp [hc]
  · intro hid
    show bcryptVerify p h = Except.error PasslibError.unknownHash
    unfold bcryptVerify
    rw [if_neg]
    simp [hid]

/-- Witness for C3 (amended) at a concrete salt, password and corrupt
digest. -/
theorem verify_password_contract_witness :
    verify_password "hunter2" (get_password_hash saltEx "hunter2") = Except.ok true ∧
    verify_password "wrong" (get_password_hash saltEx "hunter2") = Except.ok false ∧
    verify_password "hunter2" "corrupt" = Except.error PasslibError.unknownHash := by
  have h := verify_password_contract saltEx "hunter2" "wrong" "x" "corrupt" (by rfl)
  exact ⟨h.1, h.2.1 (by decide), h.2.2.2 (by rfl)⟩

/-- Marking the first digest match revoked leaves the digests in place:
searching the updated table by the same digest finds the same row, now
revoked. -/
theorem find?_revokeFirstByHash (rows : List RefreshTokenRow) (h : String) :
    (revokeFirstByHash rows h).find? (fun r => r.token_hash == h)
      = (rows.find? (fun r => r.token_hash == h)).map
          (fun r => { r with is_revoked := true }) := by
  induction rows with
  | nil => rfl
  | cons r rs ih =>
    by_cases hr : (r.token_hash == h) = true
    · simp [revokeFirstByHash, List.find?, hr]
    · simp only [revokeFirstByHash, hr]
      rw [if_neg (by simp [hr])]
      simp [List.find?, hr, ih]

/-- Revoking the first digest match twice is the same as revoking it
once. -/
theorem revokeFirstByHash_idem (rows : List RefreshTokenRow) (h : String) :
    revokeFirstByHash (revokeFirstByHash rows h) h = revokeFirstByHash rows h := by
  induction rows with
  | nil => rfl
  | cons r rs ih =>
    by_cases hr : (r.token_hash == h) = true
    · simp [revokeFirstByHash, hr]
    · simp [revokeFirstByHash, hr, ih]

/-- Every row satisfies the frame condition against itself. -/
theorem rowFramePreserved_refl (r : RefreshTokenRow) : rowFramePreserved r r :=
  ⟨rfl, rfl, rfl, rfl, rfl, fun hrev => hrev⟩

/-- Reflexivity of the frame relation on whole tables. -/
theorem forall₂_frame_refl (rows : List RefreshTokenRow) :
    List.Forall₂ rowFramePreserved rows rows :=
  List.forall₂_same.mpr fun r _ => rowFramePreserved_refl r

/-- Marking the first digest match revoked satisfies the frame
condition row by row. -/
theorem forall₂_revokeFirstByHash (rows : List RefreshTokenRow) (h : String) :
    List.Forall₂ rowFramePreserved rows (revokeFirstByHash rows h) := by
  induction rows with
  | nil => exact List.Forall₂.nil
  | cons r rs ih =>
    by_cases hr : (r.token_hash == h) = true
    · simp only [revokeFirstByHash, if_pos hr]
      exact List.Forall₂.cons ⟨rfl, rfl, rfl, rfl, rfl, fun _ => rfl⟩ (forall₂_frame_refl rs)
    · simp only [revokeFirstByHash, if_neg hr]
      exact List.Forall₂.cons (rowFramePreserved_refl r) ih

/-- The bulk revocation map satisfies the frame condition row by row. -/
theorem forall₂_revokeAllMap (rows : List RefreshTokenRow) (uid : String) :
    List.Forall₂ rowFramePreserved rows
      (rows.map fun r =>
        if r.user_id == uid && !r.is_revoked then { r with is_revoked := true } else r) := by
  induction rows with
  | nil => exact List.Forall₂.nil
  | cons r rs ih =>
    refine List.Forall₂.cons ?_ ih
    by_cases hc : (r.user_id == uid && !r.is_revoked) = true
    · simp only [hc, if_pos]
      exact ⟨rfl, rfl, rfl, rfl, rfl, fun _ => rfl⟩
    · simp only [hc]
      rw [if_neg (by simp [hc])]
      exact rowFramePreserved_refl r

/-- C5. Frame invariant of the refresh-token subsystem: each of
`rotate_refresh_token`, `revoke_refresh_token` and
`revoke_all_user_refresh_tokens` keeps every existing row in place,
changes at most its `is_revoked` column (and only from false to true),
never deletes a row, and appends only fresh inserts after the existing
rows. -/
theorem refresh_token_frame_invariant (db : AuthDB) (now : Int) (t token uid : String) :
    tokensFrameEvolution db.refresh_tokens
      (rotate_refresh_token db now t token).2.refresh_tokens ∧
    tokensFrameEvolution db.refresh_tokens
      (revoke_refresh_token db token).2.refresh_tokens ∧
    tokensFrameEvolution db.refresh_tokens
      (revoke_all_user_refresh_tokens db uid).2.refresh_tokens := by
  refine ⟨?_, ?_, ?_⟩
  · rcases hf : db.refresh_tokens.find?
        (fun r => r.token_hash == hash_refresh_token token) with _ | row
    · exact ⟨db.refresh_tokens, [], by simp [rotate_refresh_token, hf],
        forall₂_frame_refl db.refresh_tokens⟩
    · by_cases h1 : (decide (row.expires_at ≤ now) || row.is_revoked) = true
      · exact ⟨db.refresh_tokens, [], by simp [rotate_refresh_token, hf, h1],
          forall₂_frame_refl db.refresh_tokens⟩
      · rcases hu : db.users.find? (fun u => u.id == row.user_id) with _ | user
        · exact ⟨db.refresh_tokens, [], by simp [rotate_refresh_token, hf, h1, hu],
            forall₂_frame_refl db.refresh_tokens⟩
        · by_cases h2 : (!user.is_active) = true
          · exact ⟨db.refresh_tokens, [], by simp [rotate_refresh_token, hf, h1, hu, h2],
              forall₂_frame_refl db.refresh_tokens⟩
          · refine ⟨revokeFirstByHash db.refresh_tokens (hash_refresh_token token),
              [{ id := db.next_id, user_id := user.id
                 token_hash := hash_refresh_token t
                 expires_at := now + 86400 * REFRESH_TOKEN_EXPIRE_DAYS
                 is_revoked := false, meta_data := [] }],
              ?_, forall₂_revokeFirstByHash db.refresh_tokens _⟩
            simp [rotate_refresh_token, hf, h1, hu, h2]
  · rcases hf : db.refresh_tokens.find?
        (fun r => r.token_hash == hash_refresh_token token) with _ | row
    · exact ⟨db.refresh_tokens, [], by simp [revoke_refresh_token, hf],
        forall₂_frame_refl db.refresh_tokens⟩
    · exact ⟨revokeFirstByHash db.refresh_tokens (hash_refresh_token token), [],
        by simp [revoke_refresh_token, hf], forall₂_revokeFirstByHash db.refresh_tokens _⟩
  · exact ⟨_, [], by simp [revoke_all_user_refresh_tokens], forall₂_revokeAllMap db.refresh_tokens uid⟩

/-- C1. Single-use rotation: once `rotate_refresh_token` succeeds on a
plaintext, a second call with the same plaintext fails with
`(None, None, None)` and leaves the state unchanged, because the first
call revoked the consumed row in the transaction that inserted its
successor. -/
theorem rotate_refresh_token_single_use (db : AuthDB) (now now2 : Int)
    (t1 t2 token : String)
    (hs : ((rotate_refresh_token db now t1 token).1).1.isSome = true) :
    rotate_refresh_token (rotate_refresh_token db now t1 token).2 now2 t2 token
      = ((none, none, none), (rotate_refresh_token db now t1 token).2) := by
  rcases hf : db.refresh_tokens.find?
      (fun r => r.token_hash == hash_refresh_token token) with _ | row
  · simp [rotate_refresh_token, hf] at hs
  · by_cases h1 : (decide (row.expires_at ≤ now) || row.is_revoked) = true
    · simp [rotate_refresh_token, hf, h1] at hs
    · rcases hu : db.users.find? (fun u => u.id == row.user_id) with _ | user
      · simp [rotate_refresh_token, hf, h1, hu] at hs
      · by_cases h2 : (!user.is_active) = true
        · simp [rotate_refresh_token, hf, h1, hu, h2] at hs
        · have hrot1 : rotate_refresh_token db now t1 token
              = ((some t1,
                  some { id := db.next_id, user_id := user.id
                         token_hash := hash_refresh_token t1
                         expires_at := now + 86400 * REFRESH_TOKEN_EXPIRE_DAYS
                         is_revoked := false, meta_data := [] },
                  some user),
                { users := db.users
                  refresh_tokens :=
                    revokeFirstByHash db.refresh_tokens (hash_refresh_token token) ++
                      [{ id := db.next_id, user_id := user.id
                         token_hash := hash_refresh_token t1
                         expires_at := now + 86400 * REFRESH_TOKEN_EXPIRE_DAYS
                         is_revoked := false, meta_data := [] }]
                  next_id := db.next_id + 1 }) := by
            simp only [rotate_refresh_token, hf, hu]
            rw [if_neg h1, if_neg h2]
          have hfind2 :
              ((revokeFirstByHash db.refresh_tokens (hash_refresh_token token)) ++
                  [({ id := db.next_id, user_id := user.id
                      token_hash := hash_refresh_token t1
                      expires_at := now + 86400 * REFRESH_TOKEN_EXPIRE_DAYS
                      is_revoked := false, meta_data := [] } : RefreshTokenRow)]).find?
                (fun r => r.token_hash == hash_refresh_token token)
              = some { row with is_revoked := true } := by
            rw [List.find?_append, find?_revokeFirstByHash, hf]
            rfl
          rw [hrot1]
          simp only [rotate_refresh_token, hfind2]
          rw [if_pos (by simp)]

/-- Witness for C1: in the two-token database the first rotation of
`tokA` succeeds and the second rotation of `tokA` fails uniformly. -/
theorem rotate_refresh_token_single_use_witness :
    rotate_refresh_token (rotate_refresh_token dbEx 0 "fresh1" "tokA").2 0 "fresh2" "tokA"
      = ((none, none, none), (rotate_refresh_token dbEx 0 "fresh1" "tokA").2) :=
  rotate_refresh_token_single_use dbEx 0 0 "fresh1" "fresh2" "tokA" (by decide)

/-- C9 counterexample. An authenticated but inactive user is rejected
by `get_current_active_user` with HTTP status 400 (Bad Request), not
the 403 (Forbidden) the specification's taxonomy assigns. -/
theorem get_current_active_user_inactive_is_400 :
    get_current_active_user userInactive
      = Except.error { status_code := 400, detail := "Inactive user" } ∧
    ¬ ((400 : Int) = 403) := by
  exact ⟨rfl, by decide⟩

/-- C9 (amended). For every user, `get_current_active_user` raises
`HTTPException(400, "Inactive user")` exactly when the user is
inactive, and passes the user through otherwise. -/
theorem get_current_active_user_amended (u : UserRow) :
    (u.is_active = false →
      get_current_active_user u
        = Except.error { status_code := 400, detail := "Inactive user" }) ∧
    (u.is_active = true → get_current_active_user u = Except.ok u) := by
  unfold get_current_active_user
  constructor <;> intro h <;> simp [h]

/-- Witness for C9 (amended) at the concrete inactive user. -/
theorem get_current_active_user_amended_witness :
    get_current_active_user userInactive
      = Except.error { status_code := 400, detail := "Inactive user" } :=
  (get_current_active_user_amended userInactive).1 rfl

/-- C2 counterexample. The claim asserts that a second
`revoke_refresh_token` on the same plaintext returns false; the lookup
has no `is_revoked` filter, so the second call finds the row again and
returns true. -/
theorem revoke_refresh_token_twice_returns_true :
    (revoke_refresh_token dbEx "tokA").1 = true ∧
    (revoke_refresh_token (revoke_refresh_token dbEx "tokA").2 "tokA").1 = true := by
  exact ⟨rfl, rfl⟩

/-- C2 (amended). When a row with the token's digest exists,
`revoke_refresh_token` marks the matching row revoked and returns true;
a second call with the same plaintext finds the already-revoked row
again, leaves the state unchanged, and again returns true (idempotent
in effect, not in return value). -/
theorem revoke_refresh_token_amended (db : AuthDB) (token : String)
    (hex : ∃ r ∈ db.refresh_tokens, r.token_hash = hash_refresh_token token) :
    (revoke_refresh_token db token).1 = true ∧
    ((revoke_refresh_token db token).2.refresh_tokens.find?
        (fun r => r.token_hash == hash_refresh_token token)).map (fun r => r.is_revoked)
      = some true ∧
    revoke_refresh_token (revoke_refresh_token db token).2 token
      = (true, (revoke_refresh_token db token).2) := by
  have hsome : (db.refresh_tokens.find?
      (fun r => r.token_hash == hash_refresh_token token)).isSome := by
    rw [List.find?_isSome]
    obtain ⟨r, hr, he⟩ := hex
    exact ⟨r, hr, by simp [he]⟩
  obtain ⟨row, hf⟩ := Option.isSome_iff_exists.mp hsome
  have hf2 := find?_revokeFirstByHash db.refresh_tokens (hash_refresh_token token)
  rw [hf] at hf2
  refine ⟨?_, ?_, ?_⟩
  · simp [revoke_refresh_token, hf]
  · simp only [revoke_refresh_token, hf]
    rw [hf2]
    rfl
  · simp only [revoke_refresh_token, hf]
    simp only [hf2]
    rw [revokeFirstByHash_idem]
    rfl

/-- Witness for C2 (amended) on the concrete database. -/
theorem revoke_refresh_token_amended_witness :
    (revoke_refresh_token dbEx "tokA").1 = true ∧
    revoke_refresh_token (revoke_refresh_token dbEx "tokA").2 "tokA"
      = (true, (revoke_refresh_token dbEx "tokA").2) := by
  have h := revoke_refresh_token_amended dbEx "tokA" ⟨rowA, by decide, rfl⟩
  exact ⟨h.1, h.2.2⟩

/-- C4. Uniform, atomic rotation failure: in every failure case the
specification enumerates — no digest match, expired row, revoked row,
missing or inactive owner — `rotate_refresh_token` returns the single
outcome `(None, None, None)` and the database state is unchanged. -/
theorem rotate_refresh_token_uniform_failure (db : AuthDB) (now : Int)
    (t token : String) (hfail : rotateFailureSpec db now token) :
    rotate_refresh_token db now t token = ((none, none, none), db) := by
  unfold rotateFailureSpec at hfail
  rcases hf : db.refresh_tokens.find?
      (fun r => r.token_hash == hash_refresh_token token) with _ | row
  · simp [rotate_refresh_token, hf]
  · simp only [hf] at hfail
    by_cases h1 : (decide (row.expires_at ≤ now) || row.is_revoked) = true
    · simp [rotate_refresh_token, hf, h1]
    · simp only [Bool.or_eq_true, decide_eq_true_eq, not_or] at h1
      rcases hfail with hexp | hrev | huser
      · exact absurd hexp h1.1
      · exact absurd hrev (by simpa using h1.2)
      · rcases hu : db.users.find? (fun u => u.id == row.user_id) with _ | user
        · simp [rotate_refresh_token, hf, hu, h1.1, h1.2]
        · simp only [hu] at huser
          simp [rotate_refresh_token, hf, hu, h1.1, h1.2, huser]

/-- Witness for C4: rotating an expired token fails uniformly and
leaves the database untouched. -/
theorem rotate_refresh_token_uniform_failure_witness :
    rotate_refresh_token dbEx 5000 "freshX" "tokA" = ((none, none, none), dbEx) :=
  rotate_refresh_token_uniform_failure dbEx 5000 "freshX" "tokA" (Or.inl (by decide))

/-- C6. Revoke-all postcondition: `revoke_all_user_refresh_tokens`
returns the number of previously unrevoked rows of the user and leaves
every row of the user revoked; afterwards `verify_refresh_token` and
`rotate_refresh_token` fail on every plaintext whose digest row belongs
to that user.  The hypothesis that digests are pairwise distinct is the
`unique=True` constraint on `refresh_tokens.token_hash`
(`db/models.py` line 177). -/
theorem revoke_all_user_refresh_tokens_spec (db : AuthDB) (uid : String)
    (huniq : (db.refresh_tokens.map (fun r => r.token_hash)).Nodup) :
    (revoke_all_user_refresh_tokens db uid).1
      = (db.refresh_tokens.filter (fun r => r.user_id == uid && !r.is_revoked)).length ∧
    (∀ r ∈ (revoke_all_user_refresh_tokens db uid).2.refresh_tokens,
        r.user_id = uid → r.is_revoked = true) ∧
    (∀ token now t',
      (∃ r ∈ db.refresh_tokens, r.token_hash = hash_refresh_token token ∧ r.user_id = uid) →
      verify_refresh_token (revoke_all_user_refresh_tokens db uid).2 now token = none ∧
      rotate_refresh_token (revoke_all_user_refresh_tokens db uid).2 now t' token
        = ((none, none, none), (revoke_all_user_refresh_tokens db uid).2)) := by
  refine ⟨rfl, ?_, ?_⟩
  · intro r hr hru
    simp only [revoke_all_user_refresh_tokens] at hr
    obtain ⟨r0, hr0, rfl⟩ := List.mem_map.mp hr
    by_cases hc : (r0.user_id == uid && !r0.is_revoked) = true
    · simp [hc]
    · simp only [if_neg hc] at hru ⊢
      have : r0.is_revoked = true := by
        simp [hru] at hc
        exact hc
      exact this
  · intro token now t' hex
    obtain ⟨r0, hr0m, hr0h, hr0u⟩ := hex
    have hA : ∀ r' ∈ (revoke_all_user_refresh_tokens db uid).2.refresh_tokens,
        r'.token_hash = hash_refresh_token token → r'.is_revoked = true := by
      intro r' hr' hh
      simp only [revoke_all_user_refresh_tokens] at hr'
      obtain ⟨r1, hr1m, rfl⟩ := List.mem_map.mp hr'
      by_cases hc : (r1.user_id == uid && !r1.is_revoked) = true
      · simp [hc]
      · simp only [if_neg hc] at hh ⊢
        have hr10 : r1 = r0 :=
          List.inj_on_of_nodup_map huniq hr1m hr0m (by rw [hh, hr0h])
        subst hr10
        have : r1.is_revoked = true := by
          simp [hr0u] at hc
          exact hc
        exact this
    refine ⟨?_, ?_⟩
    · simp only [verify_refresh_token]
      rw [List.find?_eq_none]
      intro r' hr'
      by_cases hh : r'.token_hash = hash_refresh_token token
      · have := hA r' hr' hh
        simp [this]
      · simp [hh]
    · rcases hfz : (revoke_all_user_refresh_tokens db uid).2.refresh_tokens.find?
          (fun r => r.token_hash == hash_refresh_token token) with _ | rowf
      · simp [rotate_refresh_token, hfz]
      · have hmem := List.mem_of_find?_eq_some hfz
        have hpred := List.find?_some hfz
        have hrev : rowf.is_revoked = true := hA rowf hmem (by simpa using hpred)
        simp [rotate_refresh_token, hfz, hrev]

/-- Witness for C6: revoking all of user `u1`'s tokens revokes both
rows, after which verification and rotation of `tokA` fail. -/
theorem revoke_all_user_refresh_tokens_spec_witness :
    (revoke_all_user_refresh_tokens dbEx "u1").1 = 2 ∧
    verify_refresh_token (revoke_all_user_refresh_tokens dbEx "u1").2 0 "tokA" = none ∧
    rotate_refresh_token (revoke_all_user_refresh_tokens dbEx "u1").2 0 "f" "tokA"
      = ((none, none, none), (revoke_all_user_refresh_tokens dbEx "u1").2) := by
  have h := revoke_all_user_refresh_tokens_spec dbEx "u1" (by decide)
  have h3 := h.2.2 "tokA" 0 "f" ⟨rowA, by decide, rfl, rfl⟩
  exact ⟨by decide, h3.1, h3.2⟩

/-- The origin derived from a `Referer` always contains `://`, so it is
never the empty (Python-falsy) string. -/
theorem urlparseOrigin_ne_empty (r : String) : (urlparseOrigin r == "") = false := by
  apply beq_eq_false_iff_ne.mpr
  intro h
  have hd := congrArg String.data h
  simp only [urlparseOrigin, String.data_append] at hd
  have : (String.mk (splitScheme r.data).1).data ++ "://".data ++
      (String.mk (netlocOf (splitScheme r.data).2)).data = [] := hd
  simp at this

/-- C7 counterexample. A state-changing cookie request with a *present
but empty* `Origin` header and an allow-listed `Referer` is accepted by
the code (the empty header is falsy, so the `Referer` is consulted),
while the claim's rule — compare the `Origin` header whenever present —
rejects it. -/
theorem validate_origin_empty_origin_header :
    validate_origin_for_cookie_auth reqEmptyOrigin allowedEx = true ∧
    originGuardClaim reqEmptyOrigin allowedEx = false := by
  exact ⟨by decide, by decide⟩

/-- C7 (amended). The guard passes safe methods and bearer requests,
and otherwise compares the `Origin` header — or, when `Origin` is
absent *or empty*, the `scheme://netloc` derived from a non-empty
`Referer` — against the allow-list, rejecting when neither usable
header is present. -/
theorem validate_origin_for_cookie_auth_amended (req : HttpRequest)
    (allowed : List String) :
    validate_origin_for_cookie_auth req allowed = originGuardAmended req allowed := by
  unfold validate_origin_for_cookie_auth originGuardAmended
  by_cases hm : (req.method == "GET" || req.method == "HEAD" || req.method == "OPTIONS") = true
  · simp [hm]
  · by_cases hb : (pyStartsWith (pyLower (req.authorization.getD "")) "bearer ") = true
    · simp [hm, hb]
    · simp only [hm, hb, if_false, Bool.false_eq_true]
      rcases hro : req.origin with _ | o
      · rcases hrr : req.referer with _ | r
        · simp [pyTruthy]
        · by_cases hre : (r == "") = true
          · simp [pyTruthy, hre]
          · simp [pyTruthy, hre, urlparseOrigin_ne_empty]
      · by_cases ho : (o == "") = true
        · have ho' : o = "" := by simpa using ho
          rcases hrr : req.referer with _ | r
          · simp [pyTruthy, ho']
          · by_cases hre : (r == "") = true
            · simp [pyTruthy, ho', hre]
            · simp [pyTruthy, ho', hre, urlparseOrigin_ne_empty]
        · simp [pyTruthy, ho]

/-- For a sorted (nondecreasing) timestamp list, dropping the leading
entries below a cutoff removes exactly every entry below the cutoff. -/
theorem dropWhile_lt_eq_filter_of_sorted (c : ℤ) (l : List ℤ)
    (hs : List.Pairwise (· ≤ ·) l) :
    (l.dropWhile fun t => t < c) = l.filter fun t => c ≤ t := by
  induction l with
  | nil => rfl
  | cons x xs ih =>
    rw [List.pairwise_cons] at hs
    by_cases hx : x < c
    · have hcx : ¬ c ≤ x := not_le.mpr hx
      simp only [List.dropWhile_cons, List.filter_cons]
      rw [if_pos (by simpa using hx), if_neg (by simpa using hcx)]
      exact ih hs.2
    · have hcx : c ≤ x := not_lt.mp hx
      have hall : ∀ y ∈ xs, c ≤ y := fun y hy => le_trans hcx (hs.1 y hy)
      simp only [List.dropWhile_cons, List.filter_cons]
      rw [if_neg (by simpa using hx), if_pos (by simpa using hcx)]
      exact (congrArg (x :: ·) (List.filter_eq_self.mpr fun y hy => by simpa using hall y hy)).symm

/-- Reading a key's window after the periodic sweep: when the key
occurs at most once (dict keys are unique), the sweep's trimming and
empty-window removal amount to trimming the key's own window. -/
theorem lookupWindow_trim_filter (ws : List (String × List ℤ)) (key : String) (c : ℤ)
    (hkeys : (ws.map Prod.fst).Nodup) :
    lookupWindow ((ws.map fun kw => (kw.1, kw.2.dropWhile fun t => t < c)).filter
        fun kw => !kw.2.isEmpty) key
      = (lookupWindow ws key).dropWhile fun t => t < c := by
  induction ws with
  | nil => rfl
  | cons kw ws ih =>
    rw [List.map_cons] at hkeys ⊢
    rw [List.nodup_cons] at hkeys
    rw [List.filter_cons]
    by_cases hk : (kw.1 == key) = true
    · have hkey : kw.1 = key := by simpa using hk
      by_cases he : ((kw.2.dropWhile fun t => t < c).isEmpty) = true
      · rw [if_neg (by simp [he])]
        have hempty : (kw.2.dropWhile fun t => t < c) = [] := by
          simpa [List.isEmpty_iff] using he
        have hnone : lookupWindow ((ws.map fun kw => (kw.1, kw.2.dropWhile fun t => t < c)).filter
            fun kw => !kw.2.isEmpty) key = [] := by
          unfold lookupWindow
          rw [List.find?_eq_none.mpr]
          intro kw' hkw'
          have hmem : kw' ∈ ws.map fun kw => (kw.1, kw.2.dropWhile fun t => t < c) :=
            List.mem_of_mem_filter hkw'
          obtain ⟨orig, horig, rfl⟩ := List.mem_map.mp hmem
          have hmm : orig.1 ∈ ws.map Prod.fst := List.mem_map_of_mem Prod.fst horig
          have : orig.1 ≠ key := by
            intro hcontra
            apply hkeys.1
            rw [hkey, ← hcontra]
            exact hmm
          simp [this]
        rw [hnone]
        unfold lookupWindow
        simp [hk, hempty]
      · rw [if_pos (by simp [he])]
        unfold lookupWindow
        simp [hk]
    · by_cases he : ((kw.2.dropWhile fun t => t < c).isEmpty) = true
      · rw [if_neg (by simp [he])]
        rw [ih hkeys.2]
        unfold lookupWindow
        simp [hk]
      · rw [if_pos (by simp [he])]
        unfold lookupWindow
        rw [List.find?_cons_of_neg _ (by simpa using hk)]
        rw [List.find?_cons_of_neg _ (by simpa using hk)]
        exact ih hkeys.2

/-- Reading back a key's window through the in-place update of an
existing entry. -/
theorem lookupWindow_mapSet (ws : List (String × List ℤ)) (key : String) (w : List ℤ)
    (h : ws.any (fun kw => kw.1 == key) = true) :
    lookupWindow (ws.map fun kw => if kw.1 == key then (kw.1, w) else kw) key = w := by
  induction ws with
  | nil => simp at h
  | cons kw ws ih =>
    rw [List.map_cons]
    by_cases hk : (kw.1 == key) = true
    · unfold lookupWindow
      simp [hk]
    · rw [if_neg hk]
      unfold lookupWindow
      rw [List.find?_cons_of_neg _ (by simpa using hk)]
      have h' : ws.any (fun kw => kw.1 == key) = true := by
        rcases List.any_eq_true.mp h with ⟨kw', hkw', hp⟩
        rcases hkw' with _ | hkw'
        · exact absurd hp (by simpa using hk)
        · exact List.any_eq_true.mpr ⟨kw', by assumption, hp⟩
      exact ih h'

/-- Reading a key's window after `setWindow` returns exactly the
written window. -/
theorem lookupWindow_setWindow (ws : List (String × List ℤ)) (key : String) (w : List ℤ) :
    lookupWindow (setWindow ws key w) key = w := by
  unfold setWindow
  by_cases h : ws.any (fun kw => kw.1 == key) = true
  · rw [if_pos h]
    exact lookupWindow_mapSet ws key w h
  · rw [if_neg h]
    unfold lookupWindow
    rw [List.find?_append]
    rw [List.find?_eq_none.mpr]
    · simp
    · intro kw' hkw'
      have := List.any_eq_true.not.mp h
      simp only [not_exists, not_and] at this
      intro hp
      exact absurd (List.any_eq_true.mpr ⟨kw', hkw', hp⟩) h

/-- C8 counterexample. The claim's eviction rule — only timestamps
older than `now - window_seconds` are evicted — fails when the window
exceeds one hour and the periodic cleanup fires: the cleanup also
evicts in-window timestamps older than one hour, so a request the
claim's rule denies is allowed. -/
theorem is_allowed_cleanup_violates_claim :
    (is_allowed stStale 10000 "k" 1 86400).1.1 = true ∧
    slidingWindowClaimAllowed stStale 10000 "k" 1 86400 = false := by
  exact ⟨by decide, by decide⟩

/-- C8 (amended). For windows of at most one hour (all configured
limits use minute windows), `is_allowed` evicts exactly the
timestamps older than `now - window_seconds` for the key, allows the
request iff fewer than `limit` remain, appends the current timestamp
exactly when allowed, and reports `retry_after = window_seconds > 0`
when denying.  (For `window_seconds > 3600` the periodic cleanup can
additionally evict in-window timestamps, as the counterexample shows.)
The hypotheses state the dict/deque invariants: keys are unique and
the key's stored timestamps are nondecreasing. -/
theorem is_allowed_sliding_window (st : RateLimiterState) (now : ℤ) (key : String)
    (limit window_seconds : Int)
    (hkeys : (st.windows.map Prod.fst).Nodup)
    (hsorted : List.Pairwise (· ≤ ·) (lookupWindow st.windows key))
    (hws : window_seconds ≤ 3600) (hpos : 0 < window_seconds) :
    (is_allowed st now key limit window_seconds).1.1
      = slidingWindowClaimAllowed st now key limit window_seconds ∧
    lookupWindow (is_allowed st now key limit window_seconds).2.windows key
      = (if ((keptWindow st now key window_seconds).length : Int) < limit
         then keptWindow st now key window_seconds ++ [now]
         else keptWindow st now key window_seconds) ∧
    (is_allowed st now key limit window_seconds).1.2.retry_after
      = (if ((keptWindow st now key window_seconds).length : Int) < limit
         then 0 else window_seconds) ∧
    (slidingWindowClaimAllowed st now key limit window_seconds = false →
      0 < (is_allowed st now key limit window_seconds).1.2.retry_after) := by
  have hwin : (lookupWindow (cleanupOldEntries st now).windows key).dropWhile
      (fun t => t < now - window_seconds) = keptWindow st now key window_seconds := by
    unfold keptWindow
    by_cases hcl : now - st.last_cleanup < 300
    · have hcw : (cleanupOldEntries st now).windows = st.windows := by
        unfold cleanupOldEntries
        rw [if_pos hcl]
      rw [hcw, dropWhile_lt_eq_filter_of_sorted _ _ hsorted]
    · have hcw : (cleanupOldEntries st now).windows
          = (st.windows.map fun kw => (kw.1, kw.2.dropWhile fun t => t < now - 3600)).filter
              fun kw => !kw.2.isEmpty := by
        unfold cleanupOldEntries
        rw [if_neg hcl]
      rw [hcw, lookupWindow_trim_filter st.windows key (now - 3600) hkeys]
      rw [dropWhile_lt_eq_filter_of_sorted _ _ hsorted]
      rw [dropWhile_lt_eq_filter_of_sorted _ _ (hsorted.filter _)]
      rw [List.filter_filter]
      apply List.filter_congr
      intro t ht
      by_cases h : now - window_seconds ≤ t
      · have h36 : now - 3600 ≤ t := by linarith
        simp [h, h36]
      · simp [h]
  have hretry : (is_allowed st now key limit window_seconds).1.2.retry_after
      = (if ((keptWindow st now key window_seconds).length : Int) < limit
         then 0 else window_seconds) := by
    simp only [is_allowed, hwin]
  refine ⟨?_, ?_, hretry, ?_⟩
  · simp only [is_allowed, hwin]
    rfl
  · simp only [is_allowed, hwin]
    rw [lookupWindow_setWindow]
  · intro hdeny
    rw [hretry]
    unfold slidingWindowClaimAllowed at hdeny
    rw [if_neg (by simpa using hdeny)]
    exact hpos

/-- Witness for C8 (amended): with the 5-per-60-seconds login limit,
five requests in quick succession from one IP bucket are allowed and
the sixth is denied with a positive `retry_after`. -/
theorem is_allowed_sliding_window_witness :
    rateChain { windows := [], last_cleanup := 0 } [0, 1, 2, 3, 4] "ip:1.2.3.4" 5 60
      = [true, true, true, true, true] ∧
    (is_allowed stFive 5 "ip:1.2.3.4" 5 60).1.1 = false ∧
    0 < (is_allowed stFive 5 "ip:1.2.3.4" 5 60).1.2.retry_after := by
  have h := is_allowed_sliding_window stFive 5 "ip:1.2.3.4" 5 60
    (by decide) (by decide) (by decide) (by decide)
  refine ⟨by decide, ?_, h.2.2.2 (by decide)⟩
  rw [h.1]
  decide

/-- C10. The rate-limit identity trusts forwarding headers
unconditionally: whenever `X-Forwarded-For` is present and non-empty,
the bucket key used by `check_rate_limit` is derived from its first
comma-separated entry — regardless of the socket peer and with no
trusted-proxy check (the extractor takes no trusted-proxy input at
all) — while the trusted-proxy-aware extractor in `app.core.client_ip`
returns the socket peer for any peer outside the configured list. -/
theorem rate_limit_key_trusts_forwarding_header (req : NetRequest) (fwd : String)
    (st : RateLimiterState) (now : ℤ) (rl_string trusted_proxy_ips peer : String)
    (hfwd : req.x_forwarded_for = some fwd) (hne : (fwd == "") = false) :
    rl_get_client_ip req = pyStrip ((pySplit fwd ',').headD "") ∧
    get_rate_limit_key req "ip" none = "ip:" ++ pyStrip ((pySplit fwd ',').headD "") ∧
    check_rate_limit st now req rl_string "ip" none
      = is_allowed st now ("ip:" ++ pyStrip ((pySplit fwd ',').headD ""))
          (parse_rate_limit rl_string).1 (parse_rate_limit rl_string).2 ∧
    (req.client = some peer → (peer == "") = false →
      (((pySplit trusted_proxy_ips ',').map pyStrip).filter
          (fun s => !(s == ""))).contains peer = false →
      trusted_get_client_ip trusted_proxy_ips req = peer) := by
  have hip : rl_get_client_ip req = pyStrip ((pySplit fwd ',').headD "") := by
    unfold rl_get_client_ip
    rw [hfwd]
    simp [pyTruthy, hne]
  have hkey : get_rate_limit_key req "ip" none = "ip:" ++ pyStrip ((pySplit fwd ',').headD "") := by
    unfold get_rate_limit_key
    rw [hip]
    rfl
  refine ⟨hip, hkey, ?_, ?_⟩
  · unfold check_rate_limit
    rw [hkey]
  · intro hclient hpeer htrusted
    unfold trusted_get_client_ip
    rw [hclient]
    simp only [hpeer, Bool.false_eq_true, if_false, htrusted, Bool.not_false, if_true]

/-- Witness for C10: the spoofed request is bucketed by the
client-chosen header value while the trusted-proxy-aware extractor
(with the default empty `TRUSTED_PROXY_IPS`) reports the socket peer. -/
theorem rate_limit_key_trusts_forwarding_header_witness :
    get_rate_limit_key reqSpoof "ip" none = "ip:9.9.9.9" ∧
    trusted_get_client_ip "" reqSpoof = "203.0.113.7" := by
  have h := rate_limit_key_trusts_forwarding_header reqSpoof "9.9.9.9, 10.0.0.1"
    { windows := [], last_cleanup := 0 } 0 "5/minute" "" "203.0.113.7" rfl (by decide)
  constructor
  · rw [h.2.1]
    decide
  · exact h.2.2.2 rfl (by decide) (by decide)

end KnowledgeVault
